import Mathlib

/-!
Shallow embedding of the Gravitate-Health lens-tool-lib FHIR
extraction-and-matching core (src/fhir/common.js, src/fhir/ips.js,
src/fhir/pv.js, the ePI module of src/fhir/resource-extractor.js and
src/utils/common.js), together with theorems settling the frozen claims
about it.

JavaScript values are embedded as structured records whose optional
fields are `Option`s (`none` models an absent / `undefined` / `null`
field); a bundle argument is a `BundleInput`, which also represents the
malformed inputs (`null`, `undefined`, an object without an entry list,
`entry: null`, `entry` set to a string).  A thrown `TypeError` is
embedded as `Except.error`.  Dates are handled through an explicit
parse function `String → Option Int` (milliseconds since the epoch,
`none` for an unparsable date) and an explicit `now` instant.
-/

namespace LensLib

/-- One element of a `coding` list: `{code, system, display}`, every
field possibly absent. -/
structure Coding where
  code : Option String
  system : Option String
  display : Option String
deriving DecidableEq, Repr

/-- A FHIR CodeableConcept: an optional `coding` list and an optional
free-text `text`. -/
structure CodeableConcept where
  coding : Option (List Coding)
  text : Option String
deriving DecidableEq, Repr

/-- A normalized code record as produced by the extractors:
`{code, system, display}` with `system`/`display` defaulted to `""`,
plus the optional `source` tag used by the medication extractor. -/
structure Code where
  code : Option String
  system : String
  display : String
  source : Option String
deriving DecidableEq, Repr

/-- `valueCodeableReference` payload of an annotation block. -/
structure VCRef where
  concept : Option CodeableConcept
deriving DecidableEq, Repr

/-- Inner extension element of a Composition annotation block. -/
structure InnerExt where
  url : Option String
  valueString : Option String
  valueCodeableReference : Option VCRef
deriving DecidableEq, Repr

/-- Outer extension block (of a Composition, or pushed into a section by
`addExtensionToSection`). -/
structure OuterExt where
  url : Option String
  extension : Option (List InnerExt)
deriving DecidableEq, Repr

/-- One entry of a Composition's `section` array. -/
structure CompSection where
  extension : Option (List OuterExt)
deriving DecidableEq, Repr

/-- A `medicationReference`-style object carrying a `reference` string. -/
structure ReferenceObj where
  reference : Option String
deriving DecidableEq, Repr

/-- A Medication `ingredient` element. -/
structure Ingredient where
  itemCodeableConcept : Option CodeableConcept
deriving DecidableEq, Repr

/-- A `valueQuantity` payload. -/
structure QuantityVal where
  value : Option Int
  unit : Option String
deriving DecidableEq, Repr

/-- An Observation `subject` object. -/
structure SubjectRef where
  display : Option String
  reference : Option String
deriving DecidableEq, Repr

/-- A FHIR resource, restricted to the fields the embedded functions
read.  Every field is optional, modelling JavaScript duck typing.
`sectionArr` embeds the JavaScript field named `section` (a Lean
keyword). -/
structure Resource where
  resourceType : Option String := none
  id : Option String := none
  birthDate : Option String := none
  code : Option CodeableConcept := none
  clinicalStatus : Option CodeableConcept := none
  verificationStatus : Option CodeableConcept := none
  criticality : Option String := none
  type : Option String := none
  medicationCodeableConcept : Option CodeableConcept := none
  medicationReference : Option ReferenceObj := none
  ingredient : Option (List Ingredient) := none
  extension : Option (List OuterExt) := none
  sectionArr : Option (List CompSection) := none
  status : Option String := none
  subject : Option SubjectRef := none
  effectiveDateTime : Option String := none
  valueCodeableConcept : Option CodeableConcept := none
  valueString : Option String := none
  valueInteger : Option Int := none
  valueBoolean : Option Bool := none
  valueQuantity : Option QuantityVal := none
  valueDateTime : Option String := none
deriving DecidableEq, Repr

/-- One bundle entry: an object with an optional `resource` field. -/
structure Entry where
  resource : Option Resource
deriving DecidableEq, Repr

/-- The `entry` field of a bundle object: absent, `null`, a truthy
non-list value (carried as the string the spec's example uses), or an
actual entry list. -/
inductive EntryField where
  | absent
  | null
  | notList (s : String)
  | list (es : List Entry)
deriving DecidableEq, Repr

/-- A bundle argument as received over the JavaScript boundary:
`null`, `undefined`, or an object with an `entry` field. -/
inductive BundleInput where
  | jsNull
  | jsUndefined
  | obj (entry : EntryField)
deriving DecidableEq, Repr

/-! ## fhir/common.js -/

/-- `getResourcesByType(bundle, resourceType)`: every resource of the
entry list whose `resourceType` equals the given type, in entry order;
`[]` when the bundle is absent, has no `entry`, or `entry` is not a
list. -/
def getResourcesByType (b : BundleInput) (t : String) : List Resource :=
  match b with
  | .obj (.list es) =>
      es.filterMap (fun e =>
        match e.resource with
        | some r => if r.resourceType = some t then some r else none
        | none => none)
  | _ => []

/-- Character-level split embedding JavaScript `String.split("/")`:
every occurrence of the separator starts a new (possibly empty)
segment. -/
def splitOnCharList (sep : Char) (l : List Char) : List (List Char) :=
  match l with
  | [] => [[]]
  | c :: rest =>
      let r := splitOnCharList sep rest
      if c = sep then [] :: r
      else
        match r with
        | h :: t => (c :: h) :: t
        | [] => [[c]]

/-- `reference.split("/")` as a list of strings. -/
def jsSplitSlash (s : String) : List String :=
  (splitOnCharList '/' s.toList).map String.mk

/-- `resolveReference(reference, entries)`: split the reference on `/`
into `[type, id]`, scan the entries for a resource matching both, and
return the first match (`none` for a falsy reference, absent entries,
or no match). -/
def resolveReference (reference : Option String) (entries : Option (List Entry)) :
    Option Resource :=
  match reference, entries with
  | some s, some es =>
      if s = "" then none
      else
        let parts := jsSplitSlash s
        let ty := parts.headD ""
        let rid := parts[1]?
        ((es.find? (fun el =>
            (el.resource.bind Resource.resourceType == some ty)
              && (el.resource.bind Resource.id == rid))).bind Entry.resource)
  | _, _ => none

/-- Build one normalized `Code` from a `coding` element, defaulting
`system` and `display` to `""` and attaching the given `source` tag. -/
def mkCode (src : Option String) (c : Coding) : Code :=
  { code := c.code, system := c.system.getD "", display := c.display.getD "",
    source := src }

/-- `extractCodes(codeableConcept)`: map the `coding` list to normalized
codes; `[]` when the concept or its coding list is absent. -/
def extractCodes (cc : Option CodeableConcept) : List Code :=
  match cc with
  | some c =>
      match c.coding with
      | some l => l.map (mkCode none)
      | none => []
  | none => []

/-- `codesMatch(code1, code2, includeSystem)` of utils/common.js (and
`matchCodes` element comparison of fhir/common.js): `false` when either
argument is absent; otherwise compare `code` and, in strict mode,
`system`. -/
def codesMatch (c1 c2 : Option Coding) (includeSystem : Bool) : Bool :=
  match c1, c2 with
  | some a, some b =>
      match includeSystem with
      | true => a.code == b.code && a.system == b.system
      | false => a.code == b.code
  | _, _ => false

/-! ## fhir/ips.js -/

/-- Milliseconds divisor of `calculateAge`: the literal `31536000000`
(= 365 days) of the source. -/
def ageDivisor : Int := 31536000000

/-- `calculateAge(birthDate)` of utils/common.js, with the date parser
and the current instant made explicit: `none` for a falsy or unparsable
birth date, else `floor((now - birth) / 31536000000)`. -/
def calculateAge (parse : String → Option Int) (now : Int)
    (birthDate : Option String) : Option Int :=
  match birthDate with
  | none => none
  | some s =>
      if s = "" then none
      else
        match parse s with
        | none => none
        | some b => some ((now - b).fdiv ageDivisor)

/-- Result of `getPatientInfo`: the first Patient resource spread into a
record together with the computed `age`. -/
structure PatientInfo where
  patient : Resource
  age : Option Int
deriving DecidableEq, Repr

/-- `getPatientInfo(ipsBundle)`: the first Patient resource with an
added `age` field (`none` when `birthDate` is falsy or unparsable);
`none` when no Patient resource exists. -/
def getPatientInfo (parse : String → Option Int) (now : Int)
    (b : BundleInput) : Option PatientInfo :=
  match getResourcesByType b "Patient" with
  | [] => none
  | p :: _ =>
      some { patient := p,
             age := match p.birthDate with
               | some s => if s = "" then none else calculateAge parse now (some s)
               | none => none }

/-- The four medication-activity resource types of `getMedications`. -/
def medicationTypes : List String :=
  ["MedicationStatement", "MedicationDispense", "MedicationAdministration",
   "MedicationRequest"]

/-- One fact of the `getMedications` result. -/
structure MedicationFact where
  resourceType : String
  id : Option String
  codes : List Code
deriving DecidableEq, Repr

/-- Case 1 of `getMedications`: the inline `medicationCodeableConcept`
codes, pushed untagged. -/
def inlineMedCodes (r : Resource) : List Code :=
  match r.medicationCodeableConcept with
  | some cc =>
      match cc.coding with
      | some l => l.map (mkCode none)
      | none => []
  | none => []

/-- Case 2 of `getMedications`: resolve `medicationReference` against
the same entry list and push the resolved Medication's own codes tagged
`"medication-code"`, then each ingredient's codes tagged
`"ingredient"`. -/
def resolvedMedCodes (es : List Entry) (r : Resource) : List Code :=
  match r.medicationReference with
  | some ref =>
      match ref.reference with
      | some s =>
          if s = "" then []
          else
            match resolveReference (some s) (some es) with
            | some med =>
                ((med.code.bind CodeableConcept.coding).getD []).map
                    (mkCode (some "medication-code"))
                  ++ (med.ingredient.getD []).flatMap (fun ing =>
                      ((ing.itemCodeableConcept.bind CodeableConcept.coding).getD
                          []).map (mkCode (some "ingredient")))
            | none => []
      | none => []
  | none => []

/-- Loop body of `getMedications`: the fact built for one entry's
resource, `none` when the resource is not a medication activity or its
merged code list is empty (the drop rule). -/
def medFactOf (es : List Entry) (r : Resource) : Option MedicationFact :=
  match r.resourceType with
  | some t =>
      if medicationTypes.contains t then
        let codes := inlineMedCodes r ++ resolvedMedCodes es r
        if 0 < codes.length then
          some { resourceType := t, id := r.id, codes := codes }
        else none
      else none
  | none => none

/-- `getMedications(ipsBundle)`: `[]` for a falsy bundle or falsy
`entry`; a thrown `TypeError` (`.error`) when `entry` is a truthy
non-list (the source calls `.forEach` on it); otherwise the merged
medication facts. -/
def getMedications (b : BundleInput) : Except String (List MedicationFact) :=
  match b with
  | .jsNull => .ok []
  | .jsUndefined => .ok []
  | .obj ef =>
      match ef with
      | .absent => .ok []
      | .null => .ok []
      | .notList s => if s = "" then .ok [] else .error "TypeError"
      | .list es => .ok (es.filterMap (fun e => e.resource.bind (medFactOf es)))

/-- One fact of the `getConditions` result. -/
structure ConditionFact where
  id : Option String
  codes : List Code
  text : String
  clinicalStatus : Option String
  verificationStatus : Option String
deriving DecidableEq, Repr

/-- Record built by `getConditions` for one Condition resource. -/
def conditionFactOf (r : Resource) : ConditionFact :=
  { id := r.id,
    codes := ((r.code.bind CodeableConcept.coding).getD []).map (mkCode none),
    text := (r.code.bind CodeableConcept.text).getD "",
    clinicalStatus :=
      ((r.clinicalStatus.bind CodeableConcept.coding).bind List.head?).bind Coding.code,
    verificationStatus :=
      ((r.verificationStatus.bind CodeableConcept.coding).bind List.head?).bind
        Coding.code }

/-- `getConditions(ipsBundle)`: one record per Condition resource, in
entry order, even when its code list is empty. -/
def getConditions (b : BundleInput) : List ConditionFact :=
  (getResourcesByType b "Condition").map conditionFactOf

/-- One fact of the `getAllergies` result. -/
structure AllergyFact where
  id : Option String
  codes : List Code
  text : String
  criticality : Option String
  type : Option String
deriving DecidableEq, Repr

/-- Record built by `getAllergies` for one AllergyIntolerance
resource. -/
def allergyFactOf (r : Resource) : AllergyFact :=
  { id := r.id,
    codes := ((r.code.bind CodeableConcept.coding).getD []).map (mkCode none),
    text := (r.code.bind CodeableConcept.text).getD "",
    criticality := r.criticality,
    type := r.type }

/-- `getAllergies(ipsBundle)`: one record per AllergyIntolerance
resource, in entry order, even when its code list is empty. -/
def getAllergies (b : BundleInput) : List AllergyFact :=
  (getResourcesByType b "AllergyIntolerance").map allergyFactOf

/-- One record of the `getObservationsByCode` result. -/
structure ObsFact where
  id : Option String
  codes : List Code
  value : Option Int
  unit : Option String
  valueCodeableConcept : Option CodeableConcept
  valueDateTime : Option String
  effectiveDateTime : Option String
deriving DecidableEq, Repr

/-- Options object of `getObservationsByCode`. -/
structure ObsOptions where
  includeDisplay : Option String := none
  valueFilter : Option (ObsFact → Bool) := none

/-- Substring test embedding JavaScript `String.prototype.includes`. -/
def strIncludes (hay needle : String) : Bool :=
  (List.range (hay.toList.length + 1)).any (fun i =>
    needle.toList.isPrefixOf (hay.toList.drop i))

/-- Coding match test of `getObservationsByCode`: plain string
membership of the code value, or (when `includeDisplay` is a truthy
string) a substring match against the lower-cased display. -/
def obsCodingMatches (codes : List String) (opts : ObsOptions) (c : Coding) : Bool :=
  (match c.code with
   | some v => codes.contains v
   | none => false)
  || (match opts.includeDisplay with
      | some s =>
          s ≠ "" && (match c.display with
            | some d => strIncludes d.toLower s
            | none => false)
      | none => false)

/-- `getObservationsByCode(ipsBundle, codes, options)`: Observations
whose coding matches, projected to result records, each optionally
vetted by `options.valueFilter`. -/
def getObservationsByCode (b : BundleInput) (codes : List String)
    (opts : ObsOptions) : List ObsFact :=
  (getResourcesByType b "Observation").filterMap (fun obs =>
    match obs.code with
    | some cc =>
        match cc.coding with
        | some cods =>
            if cods.any (obsCodingMatches codes opts) then
              let result : ObsFact :=
                { id := obs.id,
                  codes := extractCodes (some cc),
                  value := obs.valueQuantity.bind QuantityVal.value,
                  unit := obs.valueQuantity.bind QuantityVal.unit,
                  valueCodeableConcept := obs.valueCodeableConcept,
                  valueDateTime := obs.valueDateTime,
                  effectiveDateTime := obs.effectiveDateTime }
              match opts.valueFilter with
              | some f => if f result then some result else none
              | none => some result
            else none
        | none => none
    | none => none)

/-! ## ePI module (getAnnotatedSections, findSectionsByCode, …) -/

/-- One record of the `getAnnotatedSections` result. -/
structure AnnotatedSection where
  category : String
  codes : List Code
deriving DecidableEq, Repr

/-- Loop body of `getAnnotatedSections` for one Composition extension
block: skip unless the second child extension has `url == "concept"`,
then require a truthy category string and a present `concept.coding`
list. -/
def sectionOfExtBlock (el : OuterExt) : Option AnnotatedSection :=
  match el.extension with
  | some inner =>
      if (inner[1]?).bind InnerExt.url ≠ some "concept" then none
      else
        match (inner[0]?).bind InnerExt.valueString with
        | some cat =>
            if cat = "" then none
            else
              match ((inner[1]?).bind InnerExt.valueCodeableReference).bind
                  VCRef.concept with
              | some concept =>
                  match concept.coding with
                  | some cods => some { category := cat, codes := cods.map (mkCode none) }
                  | none => none
              | none => none
        | none => none
  | none => none

/-- The annotated sections contributed by an entry list: for every
Composition entry with an extension list, one record per well-formed
annotation block. -/
def annotatedSectionsOfEntries (es : List Entry) : List AnnotatedSection :=
  es.flatMap (fun e =>
    match e.resource with
    | some r =>
        if r.resourceType = some "Composition" then
          match r.extension with
          | some exts => exts.filterMap sectionOfExtBlock
          | none => []
        else []
    | none => [])

/-- `getAnnotatedSections(epiBundle)`: `[]` for a falsy bundle or falsy
`entry`; a thrown `TypeError` when `entry` is a truthy non-list;
otherwise the annotation records of every Composition entry. -/
def getAnnotatedSections (b : BundleInput) : Except String (List AnnotatedSection) :=
  match b with
  | .jsNull => .ok []
  | .jsUndefined => .ok []
  | .obj ef =>
      match ef with
      | .absent => .ok []
      | .null => .ok []
      | .notList s => if s = "" then .ok [] else .error "TypeError"
      | .list es => .ok (annotatedSectionsOfEntries es)

/-- A search code of `findSectionsByCode`: a bare string or a
`{code, system}` object. -/
inductive SearchCode where
  | str (s : String)
  | obj (code : Option String) (system : Option String)
deriving DecidableEq, Repr

/-- Per-search-code test of `findSectionsByCode`: a bare string
compares against the code value only (for either mode); an object
compares code and, when `matchSystem` is set, system. -/
def codeMatchesSearch (c : Code) (sc : SearchCode) (matchSystem : Bool) : Bool :=
  match sc with
  | .str s => c.code == some s
  | .obj sccode scsystem =>
      if matchSystem then c.code == sccode && some c.system == scsystem
      else c.code == sccode

/-- A section matches when any of its codes matches any search code. -/
def sectionMatchesAny (cs : List SearchCode) (m : Bool) (sec : AnnotatedSection) : Bool :=
  sec.codes.any (fun c => cs.any (fun sc => codeMatchesSearch c sc m))

/-- Category-accumulating loop of `findSectionsByCode`: push the
category of each matching section unless it was already pushed. -/
def sectionLoop (cs : List SearchCode) (m : Bool)
    (sections : List AnnotatedSection) : List String :=
  sections.foldl (fun cats sec =>
    if sectionMatchesAny cs m sec && !(cats.contains sec.category) then
      cats ++ [sec.category]
    else cats) []

/-- `findSectionsByCode(epiBundle, codesToSearch, matchSystem)`: `[]`
when the bundle's `entry` is falsy or the search codes are not a list;
a thrown `TypeError` when `entry` is a truthy non-list (via
`getAnnotatedSections`); otherwise the de-duplicated matching
categories. -/
def findSectionsByCode (b : BundleInput) (codesToSearch : Option (List SearchCode))
    (matchSystem : Bool) : Except String (List String) :=
  match b with
  | .jsNull => .ok []
  | .jsUndefined => .ok []
  | .obj ef =>
      match ef with
      | .absent => .ok []
      | .null => .ok []
      | .notList s =>
          if s = "" then .ok []
          else
            match codesToSearch with
            | none => .ok []
            | some _ => .error "TypeError"
      | .list es =>
          match codesToSearch with
          | none => .ok []
          | some cs => .ok (sectionLoop cs matchSystem (annotatedSectionsOfEntries es))

/-- `getMedicinalProductId(epiBundle)`: the `id` of the first
MedicinalProductDefinition entry, else `none`; `none` for a falsy or
non-list `entry` (looping over a string's characters finds no
resource). -/
def getMedicinalProductId (b : BundleInput) : Option String :=
  match b with
  | .obj (.list es) =>
      (es.find? (fun e =>
          e.resource.bind Resource.resourceType == some "MedicinalProductDefinition")).bind
        (fun e => e.resource.bind Resource.id)
  | _ => none

/-- `getComposition(epiBundle)`: the first Composition resource or
`none`; `none` for a falsy `entry`; a thrown `TypeError` when `entry`
is a truthy non-list (the source calls `.find` on it). -/
def getComposition (b : BundleInput) : Except String (Option Resource) :=
  match b with
  | .jsNull => .ok none
  | .jsUndefined => .ok none
  | .obj ef =>
      match ef with
      | .absent => .ok none
      | .null => .ok none
      | .notList s => if s = "" then .ok none else .error "TypeError"
      | .list es =>
          .ok ((es.find? (fun e =>
              e.resource.bind Resource.resourceType == some "Composition")).bind
            Entry.resource)

/-- `addExtensionToSection(epiBundle, sectionIndex, newExtension,
checkDuplicates)`, in state-passing form: the returned Boolean is the
source's return value and the returned bundle is the input bundle after
the call (the source mutates it in place by pushing `newExtension` onto
the addressed section's extension array). -/
def addExtensionToSection (b : BundleInput) (sectionIndex : Nat)
    (newExt : OuterExt) (checkDuplicates : Bool) : Bool × BundleInput :=
  match b with
  | .obj (.list (e0 :: rest)) =>
      match e0.resource with
      | some r =>
          match r.sectionArr with
          | some secs =>
              match secs[sectionIndex]? with
              | some sec =>
                  let extList := sec.extension.getD []
                  if checkDuplicates && extList.contains newExt then (false, b)
                  else
                    let sec' : CompSection := { sec with extension := some (extList ++ [newExt]) }
                    let r' : Resource := { r with sectionArr := some (secs.set sectionIndex sec') }
                    (true, .obj (.list ({ e0 with resource := some r' } :: rest)))
              | none => (false, b)
          | none => (false, b)
      | none => (false, b)
  | _ => (false, b)

/-! ## fhir/pv.js -/

/-- The persona-dimension code system constant of pv.js. -/
def PD_CODE_SYSTEM : String :=
  "http://hl7.eu/fhir/ig/gravitate-health/CodeSystem/pd-type-cs"

/-- JavaScript string truthiness coercion of `x || null`: an absent or
empty string becomes `none`. -/
def truthyStr (o : Option String) : Option String :=
  match o with
  | some s => if s = "" then none else some s
  | none => none

/-- Typed value of a persona dimension. -/
inductive DimValue where
  | cc (c : CodeableConcept)
  | str (s : String)
  | int (i : Int)
  | bool (b : Bool)
deriving DecidableEq, Repr

/-- One record of the `getAllDimensions` result. -/
structure PersonaDimension where
  id : Option String
  status : Option String
  dimensionCode : Option String
  dimensionDisplay : Option String
  subject : Option String
  effectiveDateTime : Option String
  value : Option DimValue
  valueType : Option String
  codes : List Code
  valueCodes : Option (List Code)
  unit : Option String
deriving DecidableEq, Repr

/-- Loop body of `getAllDimensions` for one Observation: dimension code
from the coding whose system is `PD_CODE_SYSTEM`, and `value`/
`valueType` from the first populated typed value field in the fixed
priority order coded-concept, string, integer, boolean, quantity. -/
def mkDimension (obs : Resource) : PersonaDimension :=
  let codeInfo : Option String × Option String × List Code :=
    match obs.code with
    | some cc =>
        match cc.coding with
        | some l =>
            match l.find? (fun c => c.system == some PD_CODE_SYSTEM) with
            | some dc => (dc.code, truthyStr dc.display, extractCodes (some cc))
            | none => (none, none, extractCodes (some cc))
        | none => (none, none, [])
    | none => (none, none, [])
  let valueInfo :
      Option String × Option DimValue × Option (List Code) × Option String :=
    match obs.valueCodeableConcept with
    | some vcc =>
        (some "CodeableConcept", some (.cc vcc), some (extractCodes (some vcc)), none)
    | none =>
        match obs.valueString with
        | some s => (some "String", some (.str s), none, none)
        | none =>
            match obs.valueInteger with
            | some i => (some "Integer", some (.int i), none, none)
            | none =>
                match obs.valueBoolean with
                | some bv => (some "Boolean", some (.bool bv), none, none)
                | none =>
                    match obs.valueQuantity with
                    | some q => (some "Quantity", q.value.map DimValue.int, none, q.unit)
                    | none => (none, none, none, none)
  { id := obs.id,
    status := obs.status,
    dimensionCode := codeInfo.1,
    dimensionDisplay := codeInfo.2.1,
    subject :=
      (truthyStr (obs.subject.bind SubjectRef.display)).orElse
        (fun _ => truthyStr (obs.subject.bind SubjectRef.reference)),
    effectiveDateTime := truthyStr obs.effectiveDateTime,
    value := valueInfo.2.1,
    valueType := valueInfo.1,
    codes := codeInfo.2.2,
    valueCodes := valueInfo.2.2.1,
    unit := valueInfo.2.2.2 }

/-- `getAllDimensions(pvBundle)`: one dimension record per Observation
resource. -/
def getAllDimensions (b : BundleInput) : List PersonaDimension :=
  (getResourcesByType b "Observation").map mkDimension

/-! ## Spec-side definitions and concrete fixtures -/

/-- The merged code list the spec describes for one medication
activity: inline codes untagged, then the resolved Medication's own
codes tagged `"medication-code"`, then each ingredient's codes tagged
`"ingredient"`, in source order within each group. -/
def mergedOrderCodes (ics mcs : List Coding) (ings : List Ingredient) : List Code :=
  ics.map (mkCode none)
    ++ (mcs.map (mkCode (some "medication-code"))
      ++ ings.flatMap (fun ing =>
          ((ing.itemCodeableConcept.bind CodeableConcept.coding).getD []).map
            (mkCode (some "ingredient"))))

/-- De-duplication keeping the first occurrence, as the spec words the
section matcher's result: distinct identifiers in first-occurrence
order. -/
def firstDistinct (l : List String) : List String :=
  l.foldl (fun acc x => if acc.contains x then acc else acc ++ [x]) []

/-- The malformed-input contract of the spec for one bundle input:
every "find many" operation yields the empty list and every "find one"
operation yields `none`, with no exception. -/
def emptyOnMalformed (b : BundleInput) : Prop :=
  getMedications b = Except.ok [] ∧
  getAnnotatedSections b = Except.ok [] ∧
  getConditions b = [] ∧
  getAllergies b = [] ∧
  getAllDimensions b = [] ∧
  getMedicinalProductId b = none ∧
  getComposition b = Except.ok none ∧
  (∀ codes opts, getObservationsByCode b codes opts = []) ∧
  (∀ cs m, findSectionsByCode b cs m = Except.ok []) ∧
  (∀ parse now, getPatientInfo parse now b = none)

/-- A bundle whose `entry` field is a truthy non-list value, the
spec's `{entry: "not-a-list"}` example. -/
def badEntryBundle : BundleInput := .obj (.notList "not-a-list")

/-- Medication activity with no inline concept and a reference to
`Medication/med1` (claim C2's scenario). -/
def medActEx : Resource :=
  { resourceType := some "MedicationStatement", id := some "m1",
    medicationReference := some { reference := some "Medication/med1" } }

/-- Medication activity with an inline coded concept and a reference to
`Medication/med1`. -/
def medActEx2 : Resource :=
  { resourceType := some "MedicationRequest", id := some "m2",
    medicationCodeableConcept :=
      some { coding := some [⟨some "inl", some "s0", none⟩], text := none },
    medicationReference := some { reference := some "Medication/med1" } }

/-- Medication resource `med1` with one direct code and two ingredient
codes. -/
def medResEx : Resource :=
  { resourceType := some "Medication", id := some "med1",
    code := some { coding := some [⟨some "dcode", some "dsys", none⟩], text := none },
    ingredient := some
      [⟨some { coding := some [⟨some "icode1", some "isys1", none⟩], text := none }⟩,
       ⟨some { coding := some [⟨some "icode2", some "isys2", none⟩], text := none }⟩] }

/-- Bundle holding `medActEx` and `medResEx`. -/
def medScenarioBundle : BundleInput :=
  .obj (.list [{ resource := some medActEx }, { resource := some medResEx }])

/-- The single fact `getMedications` produces for
`medScenarioBundle`. -/
def medFactScenario : MedicationFact :=
  { resourceType := "MedicationStatement", id := some "m1",
    codes := [{ code := some "dcode", system := "dsys", display := "", source := some "medication-code" },
              { code := some "icode1", system := "isys1", display := "", source := some "ingredient" },
              { code := some "icode2", system := "isys2", display := "", source := some "ingredient" }] }

/-- Medication activity with neither inline concept nor reference: its
merged code list is empty, so it is dropped. -/
def codelessActEx : Resource :=
  { resourceType := some "MedicationStatement", id := some "m0" }

/-- Condition resource with no coded field at all. -/
def codelessCondEx : Resource :=
  { resourceType := some "Condition", id := some "c1" }

/-- A well-formed Composition annotation block with the given category
and coding list. -/
def annBlock (cat : String) (cods : List Coding) : OuterExt :=
  { url := none,
    extension := some
      [{ url := none, valueString := some cat, valueCodeableReference := none },
       { url := some "concept", valueString := none,
         valueCodeableReference :=
           some { concept := some { coding := some cods, text := none } } }] }

/-- Document bundle whose Composition carries two annotation blocks
sharing category `"X"`, with codes `A` and `B` respectively. -/
def dupCatComposition : Resource :=
  { resourceType := some "Composition",
    extension := some [annBlock "X" [⟨some "A", some "sa", none⟩],
                       annBlock "X" [⟨some "B", some "sb", none⟩]] }

/-- Bundle wrapping `dupCatComposition`. -/
def dupCatDoc : BundleInput :=
  .obj (.list [{ resource := some dupCatComposition }])

/-- Document bundle whose Composition carries one annotation block with
category `"sec1"` and the single code `{code: "123", system: "SYS2"}`. -/
def divergeComposition : Resource :=
  { resourceType := some "Composition",
    extension := some [annBlock "sec1" [⟨some "123", some "SYS2", none⟩]] }

/-- Bundle wrapping `divergeComposition`. -/
def divergeDoc : BundleInput :=
  .obj (.list [{ resource := some divergeComposition }])

/-- Date parser fixture: maps `"1970-01-01"` to epoch instant `0` and
fails on everything else. -/
def parse0 : String → Option Int := fun s => if s = "1970-01-01" then some 0 else none

/-- Patient resource born at the epoch. -/
def patientEx : Resource :=
  { resourceType := some "Patient", id := some "p1", birthDate := some "1970-01-01" }

/-- Bundle holding `patientEx`. -/
def patientBundleEx : BundleInput := .obj (.list [{ resource := some patientEx }])

/-- Extension object fixture pushed by `addExtensionToSection`. -/
def newExtEx : OuterExt := { url := some "http://example.org/ext", extension := none }

/-- Document bundle whose first entry's resource has one section with
no extension array. -/
def sectionedComposition : Resource :=
  { resourceType := some "Composition", sectionArr := some [{ extension := none }] }

/-- Bundle wrapping `sectionedComposition`. -/
def sectionedDoc : BundleInput :=
  .obj (.list [{ resource := some sectionedComposition }])

/-- `sectionedDoc` after `addExtensionToSection` appended `newExtEx`
to its first section. -/
def sectionedCompositionAfter : Resource :=
  { resourceType := some "Composition",
    sectionArr := some [{ extension := some [newExtEx] }] }

/-- Bundle wrapping `sectionedCompositionAfter`. -/
def sectionedDocAfter : BundleInput :=
  .obj (.list [{ resource := some sectionedCompositionAfter }])

/-- Medication activity whose inline concept carries the single coding
`(c, s, d)` and which references `Medication/dup`. -/
def dupActRes (c s d : String) : Resource :=
  { resourceType := some "MedicationStatement", id := some "ma",
    medicationCodeableConcept :=
      some { coding := some [⟨some c, some s, some d⟩], text := none },
    medicationReference := some { reference := some "Medication/dup" } }

/-- Medication resource `dup` whose own code and single ingredient both
carry the same coding `(c, s, d)`. -/
def dupMedRes (c s d : String) : Resource :=
  { resourceType := some "Medication", id := some "dup",
    code := some { coding := some [⟨some c, some s, some d⟩], text := none },
    ingredient := some [⟨some { coding := some [⟨some c, some s, some d⟩], text := none }⟩] }

/-- AllergyIntolerance resource with no coded field at all. -/
def codelessAllergyEx : Resource :=
  { resourceType := some "AllergyIntolerance", id := some "a1" }

/-- Observation populating both `valueString` and `valueInteger` and no
coded value. -/
def obsStrIntEx : Resource :=
  { resourceType := some "Observation", valueString := some "v",
    valueInteger := some 3 }

/-! ## Theorems -/

/-- C1 (counterexample): with `entry` set to the truthy non-list value
`"not-a-list"`, `getMedications` does not return the empty list — it
throws a `TypeError` — and so do `getAnnotatedSections`,
`findSectionsByCode` (with a list of search codes) and
`getComposition`, refuting that no extraction or matching operation
ever throws on malformed input. -/
theorem nonlist_entry_throws_type_error :
    getMedications badEntryBundle = Except.error "TypeError" ∧
    getMedications badEntryBundle ≠ Except.ok [] ∧
    getAnnotatedSections badEntryBundle = Except.error "TypeError" ∧
    findSectionsByCode badEntryBundle (some [SearchCode.str "x"]) true
      = Except.error "TypeError" ∧
    getComposition badEntryBundle = Except.error "TypeError" :=
  ⟨rfl, fun h => Except.noConfusion h, rfl, rfl, rfl⟩

/-- C1 (amended): for the malformed inputs `null`, `undefined`, `{}`
and `{entry: null}` every "find many" operation returns `[]` and every
"find one" operation returns `null` without throwing; for a truthy
non-list `entry`, the operations built on `getResourcesByType`
(`getConditions`, `getAllergies`, `getObservationsByCode`,
`getAllDimensions`, `getPatientInfo`) and `getMedicinalProductId`
still return the empty value, but `getMedications`,
`getAnnotatedSections`, `getComposition` and `findSectionsByCode`
(with a list of search codes) throw a `TypeError`. -/
theorem malformed_input_behavior :
    emptyOnMalformed BundleInput.jsNull ∧
    emptyOnMalformed BundleInput.jsUndefined ∧
    emptyOnMalformed (BundleInput.obj EntryField.absent) ∧
    emptyOnMalformed (BundleInput.obj EntryField.null) ∧
    getConditions badEntryBundle = [] ∧
    getAllergies badEntryBundle = [] ∧
    getAllDimensions badEntryBundle = [] ∧
    getMedicinalProductId badEntryBundle = none ∧
    (∀ codes opts, getObservationsByCode badEntryBundle codes opts = []) ∧
    (∀ parse now, getPatientInfo parse now badEntryBundle = none) ∧
    (∀ m, findSectionsByCode badEntryBundle none m = Except.ok []) ∧
    getMedications badEntryBundle = Except.error "TypeError" ∧
    getAnnotatedSections badEntryBundle = Except.error "TypeError" ∧
    getComposition badEntryBundle = Except.error "TypeError" ∧
    (∀ cs m, findSectionsByCode badEntryBundle (some cs) m
      = Except.error "TypeError") :=
  ⟨⟨rfl, rfl, rfl, rfl, rfl, rfl, rfl, fun _ _ => rfl, fun _ _ => rfl, fun _ _ => rfl⟩,
   ⟨rfl, rfl, rfl, rfl, rfl, rfl, rfl, fun _ _ => rfl, fun _ _ => rfl, fun _ _ => rfl⟩,
   ⟨rfl, rfl, rfl, rfl, rfl, rfl, rfl, fun _ _ => rfl, fun _ _ => rfl, fun _ _ => rfl⟩,
   ⟨rfl, rfl, rfl, rfl, rfl, rfl, rfl, fun _ _ => rfl, fun _ _ => rfl, fun _ _ => rfl⟩,
   rfl, rfl, rfl, rfl, fun _ _ => rfl, fun _ _ => rfl, fun _ => rfl,
   rfl, rfl, rfl, fun _ _ => rfl⟩

/-- C5: a bare-string search code matches on the code value only,
regardless of the matching mode; an object search code matches code
and system in strict mode and code only in loose mode; in particular
`{code:"123", system:"SYS1"}` against a section code
`{code:"123", system:"SYS2"}` matches loosely but not strictly. -/
theorem search_code_match_modes :
    (∀ c s m, codeMatchesSearch c (SearchCode.str s) m = (c.code == some s)) ∧
    (∀ c oc os, codeMatchesSearch c (SearchCode.obj oc os) true
      = (c.code == oc && some c.system == os)) ∧
    (∀ c oc os, codeMatchesSearch c (SearchCode.obj oc os) false = (c.code == oc)) ∧
    findSectionsByCode divergeDoc (some [SearchCode.obj (some "123") (some "SYS1")]) true
      = Except.ok [] ∧
    findSectionsByCode divergeDoc (some [SearchCode.obj (some "123") (some "SYS1")]) false
      = Except.ok ["sec1"] :=
  ⟨fun _ _ _ => rfl, fun _ _ _ => rfl, fun _ _ _ => rfl, rfl, rfl⟩

/-- C10: the merged medication code list is not de-duplicated — when
the same `(code, system)` pair occurs inline, as the referenced
Medication's own code, and as an ingredient code, the fact carries one
entry per occurrence, distinguishable only by the `source` tag. -/
theorem getMedications_no_dedup (c s d : String) :
    getMedications (.obj (.list [{ resource := some (dupActRes c s d) },
        { resource := some (dupMedRes c s d) }]))
      = Except.ok [{ resourceType := "MedicationStatement", id := some "ma",
                     codes := [{ code := some c, system := s, display := d, source := none },
                               { code := some c, system := s, display := d, source := some "medication-code" },
                               { code := some c, system := s, display := d, source := some "ingredient" }] }] :=
  rfl

/-- C6 (counterexample): for a patient born at epoch instant `0`
evaluated at `now = 31550000000` ms, `getPatientInfo` reports age `1`,
while the claimed formula `floor((now − birth) / 31557600000)` (the
365.25-day millisecond count) gives `0`. -/
theorem age_divisor_not_365_point_25 :
    (getPatientInfo parse0 31550000000 patientBundleEx).map PatientInfo.age
      = some (some 1) ∧
    (31550000000 : Int).fdiv 31557600000 = 0 ∧
    (getPatientInfo parse0 31550000000 patientBundleEx).map PatientInfo.age
      ≠ some (some ((31550000000 : Int).fdiv 31557600000)) :=
  ⟨rfl, by decide, by decide⟩

/-- C9 (counterexample): `addExtensionToSection` changes the bundle it
is given — after a successful call on `sectionedDoc` the bundle is
`sectionedDocAfter`, which differs from the input — refuting that no
operation of the library mutates its input. -/
theorem addExtensionToSection_mutates :
    addExtensionToSection sectionedDoc 0 newExtEx true = (true, sectionedDocAfter) ∧
    sectionedDocAfter ≠ sectionedDoc :=
  ⟨rfl, by decide⟩

theorem beq_symm_opt (p q : Option String) : (p == q) = (q == p) := by
  rw [Bool.eq_iff_iff]
  constructor <;> (intro h; exact beq_iff_eq.mpr (beq_iff_eq.mp h).symm)

/-- C7: `codesMatch` is symmetric in both modes, a strict match implies
a loose match, and (witnessed by codes sharing a value across systems)
not conversely. -/
theorem codesMatch_symm_strict_implies_loose :
    (∀ a b : Option Coding, ∀ m : Bool, codesMatch a b m = codesMatch b a m) ∧
    (∀ a b : Option Coding, codesMatch a b true = true → codesMatch a b false = true) ∧
    (codesMatch (some ⟨some "1", some "A", none⟩) (some ⟨some "1", some "B", none⟩) false
      = true ∧
     codesMatch (some ⟨some "1", some "A", none⟩) (some ⟨some "1", some "B", none⟩) true
      = false) := by
  refine ⟨?_, ?_, rfl, rfl⟩
  · intro a b m
    cases a with
    | none => cases b <;> rfl
    | some x =>
        cases b with
        | none => rfl
        | some y =>
            cases m with
            | false => simpa [codesMatch] using beq_symm_opt x.code y.code
            | true =>
                simp only [codesMatch]
                rw [beq_symm_opt x.code y.code, beq_symm_opt x.system y.system]
  · intro a b h
    cases a with
    | none => simp [codesMatch] at h
    | some x =>
        cases b with
        | none => simp [codesMatch] at h
        | some y =>
            simp only [codesMatch, Bool.and_eq_true] at h
            exact h.1

/-- Witness for C7: the strict-implies-loose implication applied at a
concrete matching pair. -/
theorem codesMatch_symm_strict_implies_loose_witness :
    codesMatch (some ⟨some "z", some "s", none⟩) (some ⟨some "z", some "s", none⟩) false
      = true :=
  codesMatch_symm_strict_implies_loose.2.1
    (some ⟨some "z", some "s", none⟩) (some ⟨some "z", some "s", none⟩) rfl

/-- C8: for an Observation populating both `valueString` and
`valueInteger`, `getAllDimensions` assigns `valueType` `"String"` when
no coded value is present and `"CodeableConcept"` when one is — the
typed fields are probed in the fixed priority order coded-concept,
string, integer, boolean, quantity and only the first populated one is
honored. -/
theorem dimension_value_type_priority (obs : Resource) (s : String) (i : Int)
    (ht : obs.resourceType = some "Observation")
    (hs : obs.valueString = some s) (hi : obs.valueInteger = some i) :
    (getAllDimensions (.obj (.list [{ resource := some obs }]))).map
        PersonaDimension.valueType
      = [some (match obs.valueCodeableConcept with
          | some _ => "CodeableConcept"
          | none => "String")]
    ∧ (getAllDimensions (.obj (.list [{ resource := some obs }]))).map
        PersonaDimension.value
      = [some (match obs.valueCodeableConcept with
          | some vcc => DimValue.cc vcc
          | none => DimValue.str s)] := by
  constructor <;>
    (simp only [getAllDimensions, getResourcesByType, List.filterMap_cons, ht,
        List.filterMap_nil, if_pos rfl]
     cases hcc : obs.valueCodeableConcept with
     | none => simp [mkDimension, hcc, hs]
     | some vcc => simp [mkDimension, hcc])

/-- Witness for C8: the priority theorem applied at a concrete
Observation carrying both a string and an integer value. -/
theorem dimension_value_type_priority_witness :
    (getAllDimensions (.obj (.list [{ resource := some obsStrIntEx }]))).map
        PersonaDimension.valueType
      = [some "String"] :=
  (dimension_value_type_priority obsStrIntEx "v" 3 rfl rfl rfl).1

/-- C6 (amended): `getPatientInfo` computes `age` as
`floor((now − birthDate) / 31536000000)` — 365-day milliseconds, not
365.25-day — and reports `age = none` when `birthDate` is absent,
empty, or unparsable. -/
theorem getPatientInfo_age_365_day_floor (parse : String → Option Int) (now : Int)
    (p : Resource) (rest : List Entry) (hp : p.resourceType = some "Patient") :
    getPatientInfo parse now (.obj (.list ({ resource := some p } :: rest)))
      = some { patient := p,
               age := match p.birthDate with
                 | some s =>
                     if s = "" then none
                     else
                       match parse s with
                       | some bms => some ((now - bms).fdiv 31536000000)
                       | none => none
                 | none => none } := by
  have hhead : getResourcesByType (.obj (.list ({ resource := some p } :: rest))) "Patient"
      = p :: getResourcesByType (.obj (.list rest)) "Patient" := by
    simp [getResourcesByType, List.filterMap_cons, hp]
  simp only [getPatientInfo, hhead]
  cases hbd : p.birthDate with
  | none => rfl
  | some s =>
      by_cases hs : s = ""
      · simp [hs]
      · simp only [hs, calculateAge, ageDivisor, if_neg, ite_false]
        cases parse s <;> simp [hs]

/-- Witness for C6 (amended): the 365-day formula applied at the
concrete epoch-born patient. -/
theorem getPatientInfo_age_365_day_floor_witness :
    getPatientInfo parse0 31550000000 patientBundleEx
      = some { patient := patientEx, age := some 1 } :=
  getPatientInfo_age_365_day_floor parse0 31550000000 patientEx [] rfl

/-- C9 (amended): no extraction or matching operation mutates its
input (they are pure readers of the bundle), but the annotation helper
`addExtensionToSection` does modify the bundle it is given: the bundle
is unchanged whenever the call reports `false`, and a successful call
returns a bundle with the extension appended, different from the
input. -/
theorem addExtensionToSection_mutation_behavior :
    (∀ b i e c, (addExtensionToSection b i e c).1 = false →
      (addExtensionToSection b i e c).2 = b) ∧
    (addExtensionToSection sectionedDoc 0 newExtEx true).1 = true ∧
    (addExtensionToSection sectionedDoc 0 newExtEx true).2 ≠ sectionedDoc := by
  refine ⟨?_, rfl, by decide⟩
  intro b i e c h
  cases b with
  | jsNull => rfl
  | jsUndefined => rfl
  | obj ef =>
      cases ef with
      | absent => rfl
      | null => rfl
      | notList s => rfl
      | list es =>
          cases es with
          | nil => rfl
          | cons e0 rest =>
              cases he : e0.resource with
              | none => simp [addExtensionToSection, he]
              | some r =>
                  cases hsec : r.sectionArr with
                  | none => simp [addExtensionToSection, he, hsec]
                  | some secs =>
                      cases hidx : secs[i]? with
                      | none => simp [addExtensionToSection, he, hsec, hidx]
                      | some sec =>
                          by_cases hdup : c = true ∧ e ∈ sec.extension.getD []
                          · simp [addExtensionToSection, he, hsec, hidx, hdup]
                          · simp [addExtensionToSection, he, hsec, hidx, hdup] at h

/-- Witness for C9 (amended): the unchanged-when-false direction at a
concrete input. -/
theorem addExtensionToSection_mutation_behavior_witness :
    (addExtensionToSection BundleInput.jsNull 0 newExtEx true).2 = BundleInput.jsNull :=
  addExtensionToSection_mutation_behavior.1 BundleInput.jsNull 0 newExtEx true rfl

/-- C2: for a medication activity whose reference resolves to a
Medication resource, the fact's code list is the inline
`medicationCodeableConcept` codes untagged, then the Medication's own
codes tagged `"medication-code"`, then each ingredient's codes tagged
`"ingredient"`, in source order within each group; and on the concrete
scenario of a Medication with one direct code and two ingredient codes
and no inline concept, `getMedications` returns exactly one fact with
3 codes tagged medication-code, ingredient, ingredient in that
order. -/
theorem getMedications_merge_order
    (act med : Resource) (t refStr : String) (rest : List Entry)
    (tx1 tx2 : Option String) (ics mcs : List Coding) (ings : List Ingredient)
    (ht : act.resourceType = some t) (hmem : t ∈ medicationTypes)
    (hinline : act.medicationCodeableConcept = some { coding := some ics, text := tx1 })
    (href : act.medicationReference = some { reference := some refStr })
    (hne : refStr ≠ "")
    (hres : resolveReference (some refStr) (some ({ resource := some act } :: rest))
      = some med)
    (hmcode : med.code = some { coding := some mcs, text := tx2 })
    (hing : med.ingredient = some ings)
    (hnz : mergedOrderCodes ics mcs ings ≠ []) :
    getMedications (.obj (.list ({ resource := some act } :: rest)))
      = Except.ok ({ resourceType := t, id := act.id,
                     codes := mergedOrderCodes ics mcs ings }
          :: rest.filterMap (fun e =>
              e.resource.bind (medFactOf ({ resource := some act } :: rest))))
    ∧ getMedications medScenarioBundle = Except.ok [medFactScenario] := by
  refine ⟨?_, rfl⟩
  have hcontains : medicationTypes.contains t = true := by
    simpa using hmem
  have hinl : inlineMedCodes act = ics.map (mkCode none) := by
    simp [inlineMedCodes, hinline]
  have hresolved : resolvedMedCodes ({ resource := some act } :: rest) act
      = mcs.map (mkCode (some "medication-code"))
        ++ ings.flatMap (fun ing =>
            ((ing.itemCodeableConcept.bind CodeableConcept.coding).getD []).map
              (mkCode (some "ingredient"))) := by
    simp [resolvedMedCodes, href, hne, hres, hmcode, hing]
  have hfact : medFactOf ({ resource := some act } :: rest) act
      = some { resourceType := t, id := act.id,
               codes := mergedOrderCodes ics mcs ings } := by
    have hmerged : inlineMedCodes act
        ++ resolvedMedCodes ({ resource := some act } :: rest) act
        = mergedOrderCodes ics mcs ings := by
      rw [hinl, hresolved, mergedOrderCodes]
    have hlen : 0 < (mergedOrderCodes ics mcs ings).length :=
      List.length_pos.mpr hnz
    simp [medFactOf, ht, hcontains, hmem, hmerged, hlen]
  simp [getMedications, List.filterMap_cons, hfact]

/-- Witness for C2: the merge-order theorem applied at a concrete
activity with one inline code referencing a Medication with one direct
code and two ingredient codes. -/
theorem getMedications_merge_order_witness :
    getMedications (.obj (.list [{ resource := some medActEx2 },
        { resource := some medResEx }]))
      = Except.ok [{ resourceType := "MedicationRequest", id := some "m2",
                     codes := mergedOrderCodes [⟨some "inl", some "s0", none⟩]
                       [⟨some "dcode", some "dsys", none⟩]
                       (medResEx.ingredient.getD []) }] :=
  (getMedications_merge_order medActEx2 medResEx "MedicationRequest" "Medication/med1"
    [{ resource := some medResEx }] none none
    [⟨some "inl", some "s0", none⟩] [⟨some "dcode", some "dsys", none⟩]
    (medResEx.ingredient.getD []) rfl (by decide) rfl rfl (by decide) rfl rfl rfl
    (by decide)).1

/-- C3: `getMedications` never emits a fact with an empty code list (a
codeless activity is dropped entirely), whereas `getConditions` and
`getAllergies` emit one record per resource of their type even when
that record's code list is empty. -/
theorem medication_drop_rule :
    (∀ b ms, getMedications b = Except.ok ms → ∀ m ∈ ms, m.codes ≠ []) ∧
    (∀ b, (getConditions b).length = (getResourcesByType b "Condition").length) ∧
    (∀ b, (getAllergies b).length
      = (getResourcesByType b "AllergyIntolerance").length) ∧
    getMedications (.obj (.list [{ resource := some codelessActEx }]))
      = Except.ok [] ∧
    getConditions (.obj (.list [{ resource := some codelessCondEx }]))
      = [{ id := some "c1", codes := [], text := "", clinicalStatus := none,
           verificationStatus := none }] ∧
    getAllergies (.obj (.list [{ resource := some codelessAllergyEx }]))
      = [{ id := some "a1", codes := [], text := "", criticality := none,
           type := none }] := by
  refine ⟨?_, ?_, ?_, rfl, rfl, rfl⟩
  · intro b ms h m hm
    cases b with
    | jsNull =>
        simp only [getMedications, Except.ok.injEq] at h
        subst h; cases hm
    | jsUndefined =>
        simp only [getMedications, Except.ok.injEq] at h
        subst h; cases hm
    | obj ef =>
        cases ef with
        | absent =>
            simp only [getMedications, Except.ok.injEq] at h
            subst h; cases hm
        | null =>
            simp only [getMedications, Except.ok.injEq] at h
            subst h; cases hm
        | notList s =>
            simp only [getMedications] at h
            split at h
            · simp only [Except.ok.injEq] at h
              subst h; cases hm
            · cases h
        | list es =>
            simp only [getMedications, Except.ok.injEq] at h
            subst h
            rcases List.mem_filterMap.mp hm with ⟨e, _, hf⟩
            rcases Option.bind_eq_some.mp hf with ⟨r, _, hfact⟩
            cases hrt : r.resourceType with
            | none =>
                simp only [medFactOf, hrt] at hfact
                cases hfact
            | some t =>
                simp only [medFactOf, hrt] at hfact
                split at hfact
                · split at hfact
                  · rename_i hlen
                    injection hfact with hfm
                    subst hfm
                    exact List.length_pos.mp hlen
                  · cases hfact
                · cases hfact
  · intro b; simp [getConditions, List.length_map]
  · intro b; simp [getAllergies, List.length_map]

/-- Witness for C3: the never-empty-codes invariant applied to the
concrete fact produced for `medScenarioBundle`. -/
theorem medication_drop_rule_witness : medFactScenario.codes ≠ [] :=
  medication_drop_rule.1 medScenarioBundle [medFactScenario] rfl medFactScenario
    (List.mem_singleton_self medFactScenario)

theorem sectionLoop_eq_firstDistinct_aux (cs : List SearchCode) (m : Bool) :
    ∀ (secs : List AnnotatedSection) (acc : List String),
      secs.foldl (fun cats sec =>
        if sectionMatchesAny cs m sec && !(cats.contains sec.category) then
          cats ++ [sec.category]
        else cats) acc
      = ((secs.filter (sectionMatchesAny cs m)).map AnnotatedSection.category).foldl
          (fun acc x => if acc.contains x then acc else acc ++ [x]) acc := by
  intro secs
  induction secs with
  | nil => intro acc; rfl
  | cons s tl ih =>
      intro acc
      cases hs : sectionMatchesAny cs m s with
      | false =>
          have hstep :
              (if sectionMatchesAny cs m s && !(acc.contains s.category) then
                acc ++ [s.category]
              else acc) = acc := by
            simp [hs]
          rw [List.foldl_cons, hstep, List.filter_cons_of_neg (by simp [hs]), ih acc]
      | true =>
          have hstep :
              (if sectionMatchesAny cs m s && !(acc.contains s.category) then
                acc ++ [s.category]
              else acc)
              = (if acc.contains s.category then acc else acc ++ [s.category]) := by
            cases hc : acc.contains s.category <;> simp [hs, hc]
          rw [List.foldl_cons, hstep, List.filter_cons_of_pos (by simp [hs]),
            List.map_cons, List.foldl_cons, ih]

theorem foldl_push_new_nodup :
    ∀ (l acc : List String), acc.Nodup →
      (l.foldl (fun acc x => if acc.contains x then acc else acc ++ [x]) acc).Nodup := by
  intro l
  induction l with
  | nil => intro acc h; exact h
  | cons x tl ih =>
      intro acc h
      rw [List.foldl_cons]
      cases hc : acc.contains x with
      | true => rw [if_pos rfl]; exact ih acc h
      | false =>
          rw [if_neg (by simp)]
          apply ih
          have hx : x ∉ acc := by simpa using hc
          exact h.append (List.nodup_singleton x) (List.disjoint_singleton.mpr hx)

/-- C4: `findSectionsByCode` returns the distinct matching category
identifiers in first-occurrence order (its result never holds
duplicates), and two annotation blocks sharing category `"X"` with
codes `A` and `B` collapse to a single `"X"` when searching for
`[A, B]`. -/
theorem findSections_distinct_categories :
    (∀ es cs m, findSectionsByCode (.obj (.list es)) (some cs) m
      = Except.ok (firstDistinct
          (((annotatedSectionsOfEntries es).filter (sectionMatchesAny cs m)).map
            AnnotatedSection.category))) ∧
    (∀ b cs m l, findSectionsByCode b cs m = Except.ok l → l.Nodup) ∧
    findSectionsByCode dupCatDoc
        (some [SearchCode.obj (some "A") (some "sa"),
               SearchCode.obj (some "B") (some "sb")]) true
      = Except.ok ["X"] := by
  refine ⟨?_, ?_, rfl⟩
  · intro es cs m
    simp only [findSectionsByCode, sectionLoop, firstDistinct,
      sectionLoop_eq_firstDistinct_aux]
  · intro b cs m l h
    cases b with
    | jsNull =>
        simp only [findSectionsByCode, Except.ok.injEq] at h
        subst h; exact List.nodup_nil
    | jsUndefined =>
        simp only [findSectionsByCode, Except.ok.injEq] at h
        subst h; exact List.nodup_nil
    | obj ef =>
        cases ef with
        | absent =>
            simp only [findSectionsByCode, Except.ok.injEq] at h
            subst h; exact List.nodup_nil
        | null =>
            simp only [findSectionsByCode, Except.ok.injEq] at h
            subst h; exact List.nodup_nil
        | notList s =>
            simp only [findSectionsByCode] at h
            split at h
            · simp only [Except.ok.injEq] at h
              subst h; exact List.nodup_nil
            · cases cs with
              | none =>
                  simp only [Except.ok.injEq] at h
                  subst h; exact List.nodup_nil
              | some cs' => cases h
        | list es =>
            cases cs with
            | none =>
                simp only [findSectionsByCode, Except.ok.injEq] at h
                subst h; exact List.nodup_nil
            | some cs' =>
                simp only [findSectionsByCode, Except.ok.injEq] at h
                subst h
                rw [sectionLoop, sectionLoop_eq_firstDistinct_aux]
                exact foldl_push_new_nodup _ [] List.nodup_nil

/-- Witness for C4: the no-duplicates invariant applied to the concrete
two-block document. -/
theorem findSections_distinct_categories_witness : (["X"] : List String).Nodup :=
  findSections_distinct_categories.2.1 dupCatDoc
    (some [SearchCode.obj (some "A") (some "sa"),
           SearchCode.obj (some "B") (some "sb")]) true ["X"] rfl

end LensLib
